import Mathlib

/-!
Verification of the fallback-chained metadata/stream resolver
(`/api/audio` Vercel serverless function).

The repository contains three versions of the same endpoint:
* `src/unnamed/part_000` — the version with the full composite scorer
  (artist-match ratio, duration score, title score); embedded below at
  top level (`searchJioSaavn`, `selectBest`, ...).
* `src/api/audio.js` — a version whose matcher reduces on duration alone
  and whose artist extraction falls back to `artists.all`; embedded in
  namespace `Api`.
* `src/unnamed/part_001` — an older reduce-based matcher; embedded in
  namespace `V1`.

Strings that take part in matching are modelled as `List Char`
(`Str`), so that case folding, whitespace stripping and substring
containment are executable and decidable.  JavaScript `NaN` (which
arises from the `matchedArtists / authorNames.length` division when the
author hint tokenizes to nothing) is modelled by `Option ℚ`: `none`
propagates through arithmetic and every comparison against it is false,
exactly as NaN behaves in JS comparisons.  JS truthiness of the
`duration` field (`result.duration ? ... : sentinel`) is modelled
explicitly: a `some 0` duration falls to the sentinel, as `0` is falsy.
-/

/-- Strings that participate in fuzzy matching. -/
abbrev Str := List Char

/-- JS `toLowerCase()`. -/
def lowerStr (s : Str) : Str := s.map Char.toLower

/-- JS `replace(/\s+/g, '')`: strip all whitespace. -/
def stripSpaces (s : Str) : Str := s.filter (fun c => !c.isWhitespace)

/-- JS `trim()`: strip leading and trailing whitespace. -/
def trimStr (s : Str) : Str :=
  ((s.dropWhile Char.isWhitespace).reverse.dropWhile Char.isWhitespace).reverse

/-- JS `split(/[,&]/)`: split on every comma or ampersand. -/
def splitSeps : Str → List Str
  | [] => [[]]
  | c :: rest =>
    match splitSeps rest with
    | [] => [[]]
    | cur :: rs => if c = ',' ∨ c = '&' then [] :: cur :: rs else (c :: cur) :: rs

/-- JS `hay.includes(needle)`: substring containment. -/
def containsSub (hay needle : Str) : Bool := decide (needle <:+: hay)

/-- JS `parts.join(', ')`. -/
def joinComma (parts : List Str) : Str := List.intercalate [',', ' '] parts

/-- An entry of the `downloadUrl` / `image` arrays: the code only reads `.url`. -/
structure UrlEntry where
  url : String
deriving DecidableEq

/-- An entry of `artists.primary` / `artists.featured` / `artists.all`:
the code only reads `.name`. -/
structure ArtistEntry where
  name : Str
deriving DecidableEq

/-- One JioSaavn search hit, as consumed by `searchJioSaavn`.
`primary`, `featured` and `artistsAll` model `result.artists?.primary`,
`...?.featured` and `...?.all`, with an absent array collapsed to `[]`
(the code falls back to `[]` under optional chaining). -/
structure Candidate where
  name : Str
  primary : List ArtistEntry
  featured : List ArtistEntry
  artistsAll : List ArtistEntry
  duration : Option Int
  downloadUrl : List UrlEntry
  image : List UrlEntry
  url : String
deriving DecidableEq

/-- The normalized result object returned by `searchJioSaavn`. -/
structure SaavnResult where
  source : String
  title : Str
  artist : Str
  duration : Option Int
  thumbnail : Option String
  downloadUrl : Option String
  url : String
deriving DecidableEq

/-- JS truthiness of an optional string parameter: absent or empty is falsy. -/
def truthyStr (o : Option Str) : Bool :=
  match o with
  | some s => !s.isEmpty
  | none => false

/-- JS truthiness of an optional string parameter (`String` version). -/
def truthyS (o : Option String) : Bool :=
  match o with
  | some s => !s.isEmpty
  | none => false

/-- part_000 line 73: `author.toLowerCase().split(/[,&]/).map(a => a.trim()).filter(a => a.length > 0)`. -/
def authorNames (author : Str) : List Str :=
  ((splitSeps (lowerStr author)).map trimStr).filter (fun a => 0 < a.length)

/-- part_000 lines 82-85: all artist names of a candidate, lower-cased
(primary then featured). -/
def currentArtists (c : Candidate) : List Str :=
  c.primary.map (fun a => lowerStr a.name) ++ c.featured.map (fun a => lowerStr a.name)

/-- part_000 lines 92-97: one hint token matches if, after stripping all
whitespace (and lower-casing again), either string contains the other. -/
def artistFound (arts : List Str) (authName : Str) : Bool :=
  arts.any (fun artist =>
    containsSub (lowerStr (stripSpaces artist)) (lowerStr (stripSpaces authName)) ||
    containsSub (lowerStr (stripSpaces authName)) (lowerStr (stripSpaces artist)))

/-- part_000 lines 90-99: number of hint tokens matched by the candidate. -/
def matchedArtists (names : List Str) (arts : List Str) : Nat :=
  names.countP (fun n => artistFound arts n)

/-- part_000 line 102: `matchedArtists / authorNames.length`.  When the
token list is empty the JS division is `0 / 0 = NaN`; this is modelled
as `none`, and every comparison against `none` below is false, exactly
as NaN compares in JS. -/
def artistMatchPercent (names : List Str) (arts : List Str) : Option ℚ :=
  if names.length = 0 then none
  else some ((matchedArtists names arts : ℚ) / (names.length : ℚ))

/-- part_000 line 105: `result.duration ? Math.abs(result.duration - targetDuration) : 999`.
Note that JS truthiness sends a present-but-zero duration to the 999
sentinel as well. -/
def durationDiff (target : Int) (c : Candidate) : Int :=
  match c.duration with
  | some d => if d = 0 then 999 else ((d - target).natAbs : Int)
  | none => 999

/-- part_000 line 106: `Math.max(0, 1 - durationDiff / 60)`. -/
def durationScore (diff : Int) : ℚ := max 0 (1 - (diff : ℚ) / 60)

/-- part_000 lines 109-110: 1 if either title contains the other
case-insensitively, else 0.5. -/
def titleMatchScore (title : Str) (c : Candidate) : ℚ :=
  if containsSub (lowerStr c.name) (lowerStr title) ||
      containsSub (lowerStr title) (lowerStr c.name) then 1 else 1/2

/-- part_000 line 113: `(artistMatchPercent * 10) + (durationScore * 3) + (titleMatch * 1)`.
`none` (NaN) propagates. -/
def candidateScore (names : List Str) (title : Str) (target : Int) (c : Candidate) :
    Option ℚ :=
  (artistMatchPercent names (currentArtists c)).map
    (fun r => r * 10 + durationScore (durationDiff target c) * 3 + titleMatchScore title c * 1)

/-- part_000 line 118: `artistMatchPercent >= 0.5 || durationDiff < 10`
(with `NaN >= 0.5` false). -/
def eligible (names : List Str) (target : Int) (c : Candidate) : Bool :=
  (match artistMatchPercent names (currentArtists c) with
   | some r => decide ((1 : ℚ)/2 ≤ r)
   | none => false) || decide (durationDiff target c < 10)

/-- part_000 lines 118-123: one iteration of the best-of loop carrying
`(bestMatch, bestScore)`.  A NaN score never beats `bestScore`. -/
def stepBest (names : List Str) (title : Str) (target : Int)
    (acc : Option Candidate × ℚ) (c : Candidate) : Option Candidate × ℚ :=
  match candidateScore names title target c with
  | none => acc
  | some s => if eligible names target c = true ∧ acc.2 < s then (some c, s) else acc

/-- part_000 lines 64-124: the best-of scan, starting from
`bestMatch = null`, `bestScore = -1`. -/
def findBest (names : List Str) (title : Str) (target : Int)
    (results : List Candidate) : Option Candidate × ℚ :=
  results.foldl (stepBest names title target) (none, -1)

/-- part_000 lines 68-130: the full scoring pass; `none` models the
`No matching song found` throw (`!bestMatch || bestScore < 5`). -/
def selectBest (title author : Str) (target : Int) (results : List Candidate) :
    Option Candidate :=
  match findBest (authorNames author) title target results with
  | (some c, s) => if s < 5 then none else some c
  | (none, _) => none

/-- part_000 lines 137-163: derive the normalized result from the
selected candidate. -/
def deriveResult (bestMatch : Candidate) : SaavnResult :=
  { source := "saavn"
  , title := bestMatch.name
  , artist :=
      let primaryA := bestMatch.primary.map (fun a => a.name)
      let featuredA := bestMatch.featured.map (fun a => a.name)
      let allNames := primaryA ++ featuredA
      if 0 < allNames.length then joinComma allNames else ( "Unknown").toList
  , duration := bestMatch.duration
  , thumbnail :=
      if h : 0 < bestMatch.image.length
      then some (bestMatch.image.getLast (List.length_pos.mp h)).url else none
  , downloadUrl :=
      if h : 0 < bestMatch.downloadUrl.length
      then some (bestMatch.downloadUrl.getLast (List.length_pos.mp h)).url else none
  , url := bestMatch.url }

/-- part_000 lines 42-168 (`searchJioSaavn`), modelled after the fetch:
given the parsed result list, either run the full scoring pass (both
hints truthy) or take the first result.  An empty result list is the
`No results found` throw. -/
def searchJioSaavn (title : Str) (author : Option Str) (duration : Option Int)
    (results : List Candidate) : Option SaavnResult :=
  match results with
  | [] => none
  | r0 :: _ =>
    if truthyStr author ∧ duration.isSome then
      (selectBest title (author.getD []) (duration.getD 0) results).map deriveResult
    else some (deriveResult r0)

namespace Api

/-- audio.js lines 62-67: one step of the duration reduce.  JS returns
`best` when either duration is falsy (absent or zero). -/
def reduceStep (target : Int) (best current : Candidate) : Candidate :=
  match current.duration, best.duration with
  | some cd, some bd =>
    if cd = 0 ∨ bd = 0 then best
    else if (cd - target).natAbs < (bd - target).natAbs then current else best
  | _, _ => best

/-- audio.js lines 57-68: `bestMatch = results[0]`, then, when a
duration hint is present and more than one result came back, reduce the
whole list by closest duration (JS `reduce` with no seed folds the tail
over the head). -/
def bestMatch (duration : Option Int) (r0 : Candidate) (rest : List Candidate) :
    Candidate :=
  match duration with
  | none => r0
  | some target => if rest.length = 0 then r0 else rest.foldl (reduceStep target) r0

/-- audio.js lines 70-93: derive the result.  The artist string is
`primary.join(', ') || all.join(', ') || 'Unknown'` — the `featured`
list is never consulted, and an empty join string falls through. -/
def deriveResult (bm : Candidate) : SaavnResult :=
  { source := "saavn"
  , title := bm.name
  , artist :=
      let p := joinComma (bm.primary.map (fun a => a.name))
      let al := joinComma (bm.artistsAll.map (fun a => a.name))
      if 0 < p.length then p else if 0 < al.length then al else ( "Unknown").toList
  , duration := bm.duration
  , thumbnail :=
      if h : 0 < bm.image.length
      then some (bm.image.getLast (List.length_pos.mp h)).url else none
  , downloadUrl :=
      if h : 0 < bm.downloadUrl.length
      then some (bm.downloadUrl.getLast (List.length_pos.mp h)).url else none
  , url := bm.url }

/-- audio.js lines 43-98 (`searchJioSaavn`), modelled after the fetch.
The author hint is only used to build the upstream query string, never
for selection. -/
def searchJioSaavn (_title : Str) (_author : Option Str) (duration : Option Int)
    (results : List Candidate) : Option SaavnResult :=
  match results with
  | [] => none
  | r0 :: rest => some (deriveResult (bestMatch duration r0 rest))

end Api

namespace V1

/-- part_001 line 72: `author.toLowerCase().split(/[,&]/).map(a => a.trim())` —
note: no filtering of empty tokens. -/
def authorNames (author : Str) : List Str :=
  (splitSeps (lowerStr author)).map trimStr

/-- part_001 lines 82-86: some provided author name matches some artist
of the candidate (plain bidirectional containment, no whitespace strip). -/
def artistMatch (names : List Str) (c : Candidate) : Bool :=
  names.any (fun authName =>
    (currentArtists c).any (fun artist =>
      containsSub artist authName || containsSub authName artist))

/-- part_001 lines 89-90: duration difference with sentinel 99999 for a
falsy (absent or zero) duration. -/
def durDiff (target : Int) (d : Option Int) : Int :=
  match d with
  | some x => if x = 0 then 99999 else ((x - target).natAbs : Int)
  | none => 99999

/-- part_001 lines 74-97: one step of the reduce. -/
def reduceStep (names : List Str) (target : Int) (best current : Candidate) :
    Candidate :=
  if artistMatch names current = true ∧ durDiff target current.duration < 30 then current
  else if durDiff target current.duration < durDiff target best.duration then current
  else best

/-- part_001 lines 64-98: `bestMatch = results[0]`, improved only when
author and duration are both truthy and more than one result came back. -/
def bestMatch (_title author : Str) (target : Int) (r0 : Candidate)
    (rest : List Candidate) : Candidate :=
  if rest.length = 0 then r0
  else rest.foldl (reduceStep (authorNames author) target) r0

/-- part_001 lines 42-131 (`searchJioSaavn`), modelled after the fetch.
Result derivation (lines 100-126) is identical to part_000's, so
`deriveResult` is shared. -/
def searchJioSaavn (title : Str) (author : Option Str) (duration : Option Int)
    (results : List Candidate) : Option SaavnResult :=
  match results with
  | [] => none
  | r0 :: rest =>
    if truthyStr author ∧ duration.isSome then
      some (deriveResult (bestMatch title (author.getD []) (duration.getD 0) r0 rest))
    else some (deriveResult r0)

end V1

/-- part_000 lines 18-21: the stremio instance list. -/
def STREMIO_INSTANCES : List String :=
  [ "https://ubiquitous-rugelach-b30b3f.netlify.app"
  , "https://super-duper-system.netlify.app" ]

/-- audio.js lines 18-22: the stremio instance list of that version —
its first entry appears again in third position. -/
def Api.STREMIO_INSTANCES : List String :=
  [ "https://ubiquitous-rugelach-b30b3f.netlify.app"
  , "https://super-duper-system.netlify.app"
  , "https://ubiquitous-rugelach-b30b3f.netlify.app" ]

/-- Lines 5-16 (all versions): the invidious instance list. -/
def INVIDIOUS_INSTANCES : List String :=
  [ "invidious.darkness.services"
  , "yt.omada.cafe"
  , "invidious.reallyaweso.me"
  , "invidious.f5.si"
  , "inv-veltrix-2.zeabur.app"
  , "inv-veltrix.zeabur.app"
  , "inv-veltrix-3.zeabur.app"
  , "inv.vern.cc"
  , "invidious.materialio.us"
  , "y.com.sb" ]

/-- Outcome of one instance attempt: a 2xx response with a parseable
JSON body, or one of the failure modes the loop skips over (non-2xx
status; network error or timeout, which `fetchWithTimeout` surfaces as
a thrown error; a 2xx body that `response.json()` fails to parse). -/
inductive Outcome where
  | ok (body : String)
  | httpError (status : Nat)
  | netError
  | malformed
deriving DecidableEq

/-- Whether an attempt succeeded. -/
def Outcome.isOk : Outcome → Bool
  | .ok _ => true
  | _ => false

/-- The shared instance-pool loop (part_000 lines 170-232, audio.js
lines 100-148): walk the list in order, return on the first instance
whose attempt succeeds, skip every failure, fail only after the list is
exhausted.  `outcomes i` is the outcome of the attempt against the
list entry in position `i`. -/
def fetchFromPool (outcomes : Nat → Outcome) : List String → Nat →
    Option (String × String)
  | [], _ => none
  | inst :: rest, i =>
    match outcomes i with
    | .ok body => some (inst, body)
    | _ => fetchFromPool outcomes rest (i + 1)

/-- The list of instances actually attempted by `fetchFromPool`:
every failing entry up to and including the first success. -/
def poolAttempts (outcomes : Nat → Outcome) : List String → Nat → List String
  | [], _ => []
  | inst :: rest, i =>
    match outcomes i with
    | .ok _ => [inst]
    | _ => inst :: poolAttempts outcomes rest (i + 1)

/-- part_000 lines 171-200: `fetchFromStremio`. -/
def fetchFromStremio (outcomes : Nat → Outcome) : Option (String × String) :=
  fetchFromPool outcomes STREMIO_INSTANCES 0

/-- part_000 lines 203-232: `fetchFromInvidious`; the returned instance
string is prefixed with `https://` as in the source. -/
def fetchFromInvidious (outcomes : Nat → Outcome) : Option (String × String) :=
  (fetchFromPool outcomes INVIDIOUS_INSTANCES 0).map
    (fun r => ( "https://" ++ r.1, r.2))

/-- The three fallback strategies of the orchestrator. -/
inductive Strategy where
  | saavn | stremio | invidious
deriving DecidableEq

/-- The `attempts` object of the 404 body. -/
structure AttemptsMap where
  saavn : String
  stremio : String
  invidious : String
deriving DecidableEq

/-- The payload spread into a success body. -/
inductive SuccessPayload where
  | fromSaavn (r : SaavnResult)
  | fromInst (source : String) (inst : String) (data : String)
deriving DecidableEq

/-- The JSON body of a response. -/
inductive ResponseBody where
  | empty
  | errorOnly (error : String)
  | success (ok : Bool) (payload : SuccessPayload)
  | failure (ok : Bool) (error : String) (attempts : AttemptsMap)
deriving DecidableEq

/-- What one handled request produced: the HTTP status, the body, the
strategies attempted in order, and the pool instances attempted. -/
structure HandlerResult where
  status : Nat
  body : ResponseBody
  trace : List Strategy
  instancesTried : List String
deriving DecidableEq

/-- The upstream world a single request sees: the parsed JioSaavn
search response (`none` models a failed fetch, a non-2xx status, a
malformed body, or `success: false`), and the per-position outcomes of
the two instance pools. -/
structure Env where
  saavn : Option (List Candidate)
  stremio : Nat → Outcome
  invidious : Nat → Outcome

/-- An incoming request: method and the four query parameters. -/
structure Req where
  method : String
  id : Option String
  title : Option Str
  author : Option Str
  duration : Option Int

/-- Strategy 1 (part_000 lines 260-276): fetch the JioSaavn search
results and run `searchJioSaavn` over them. -/
def saavnStrategy (req : Req) (env : Env) : Option SaavnResult :=
  match env.saavn with
  | none => none
  | some results => searchJioSaavn (req.title.getD []) req.author req.duration results

/-- The instances attempted by the stremio strategy. -/
def stremioAttempts (env : Env) : List String :=
  poolAttempts env.stremio STREMIO_INSTANCES 0

/-- The instances attempted by the invidious strategy. -/
def invidiousAttempts (env : Env) : List String :=
  poolAttempts env.invidious INVIDIOUS_INSTANCES 0

/-- part_000 lines 278-314: strategies 2 and 3 and the final 404.
`t0` is the trace accumulated by strategy 1 and `triedTitle` whether a
title hint was given (the 404 body re-tests `title`). -/
def instanceStage (t0 : List Strategy) (triedTitle : Bool) (env : Env) :
    HandlerResult :=
  match fetchFromStremio env.stremio with
  | some (inst, data) =>
    ⟨200, .success true (.fromInst "stremio" inst data),
      t0 ++ [Strategy.stremio], stremioAttempts env⟩
  | none =>
    match fetchFromInvidious env.invidious with
    | some (inst, data) =>
      ⟨200, .success true (.fromInst "invidious" inst data),
        t0 ++ [Strategy.stremio, Strategy.invidious],
        stremioAttempts env ++ invidiousAttempts env⟩
    | none =>
      ⟨404, .failure false "Could not fetch audio from any source"
        ⟨if triedTitle then "failed" else "skipped", "failed", "failed"⟩,
        t0 ++ [Strategy.stremio, Strategy.invidious],
        stremioAttempts env ++ invidiousAttempts env⟩

/-- part_000 lines 259-314: the strategy cascade, entered once the
request validates. -/
def handlerCore (req : Req) (env : Env) : HandlerResult :=
  if truthyStr req.title then
    match saavnStrategy req env with
    | some r => ⟨200, .success true (.fromSaavn r), [Strategy.saavn], []⟩
    | none => instanceStage [Strategy.saavn] true env
  else instanceStage [] false env

/-- part_000 lines 235-314: the main handler. -/
def handler (req : Req) (env : Env) : HandlerResult :=
  if req.method = "OPTIONS" then ⟨200, .empty, [], []⟩
  else if ¬ (req.method = "GET") then ⟨405, .errorOnly "Method not allowed", [], []⟩
  else if truthyS req.id = false then
    ⟨400, .errorOnly "Missing required parameter: id", [], []⟩
  else handlerCore req env

/-!
Claim-side definitions.  The following definitions restate, in the
words of the specification and of the claims, quantities that the
embedding above computes in the shape of the source; the refinement
theorems below compare the two.
-/

/-- The duration difference exactly as claim C3 words it: absolute
difference when the candidate duration is present, sentinel 999 only
when it is missing. -/
def specDurationDiff (target : Int) (c : Candidate) : Int :=
  match c.duration with
  | some d => ((d - target).natAbs : Int)
  | none => 999

/-- The artist match ratio as a plain rational: matched hint tokens
over total hint tokens. -/
def specRatio (names : List Str) (arts : List Str) : ℚ :=
  (matchedArtists names arts : ℚ) / (names.length : ℚ)

/-- The composite formula exactly as claim C3 states it:
`10 * ratio + 3 * max 0 (1 - diff / 60) + titleScore`, with the
missing-duration sentinel only. -/
def specComposite (names : List Str) (title : Str) (target : Int) (c : Candidate) : ℚ :=
  10 * specRatio names (currentArtists c) +
    3 * max 0 (1 - (specDurationDiff target c : ℚ) / 60) +
    titleMatchScore title c

/-- The composite formula amended to what the code computes: identical
to `specComposite` except that a missing or zero (JS-falsy) candidate
duration uses the sentinel difference 999. -/
def amendedComposite (names : List Str) (title : Str) (target : Int) (c : Candidate) : ℚ :=
  10 * specRatio names (currentArtists c) +
    3 * max 0 (1 - (durationDiff target c : ℚ) / 60) +
    titleMatchScore title c

/-!
Concrete inputs used by counterexamples and witnesses.
-/

/-- A candidate whose single artist is `j`, whose duration matches a
183-second hint within 2 seconds, and whose name equals the title hint. -/
def candJ : Candidate :=
  { name := [ 'i' ], primary := [⟨[ 'j' ]⟩], featured := [], artistsAll := []
  , duration := some 181, downloadUrl := [⟨ "u1"⟩, ⟨ "u2"⟩]
  , image := [⟨ "i1"⟩, ⟨ "i2"⟩], url := "cu" }

/-- A candidate with a present-but-zero duration (JS-falsy), matching
artist `x` and title `t`. -/
def candZero : Candidate :=
  { name := [ 't' ], primary := [⟨[ 'x' ]⟩], featured := [], artistsAll := []
  , duration := some 0, downloadUrl := [], image := [], url := "" }

/-- First candidate of the C2 counterexample: duration 100. -/
def candA : Candidate :=
  { name := [ 'a' ], primary := [], featured := [], artistsAll := []
  , duration := some 100, downloadUrl := [], image := [], url := "" }

/-- Second candidate of the C2 counterexample: duration 50, exactly the
hint. -/
def candB : Candidate :=
  { name := [ 'b' ], primary := [], featured := [], artistsAll := []
  , duration := some 50, downloadUrl := [], image := [], url := "" }

/-- Candidate with one primary artist `a` and one featured artist `b`. -/
def candAB : Candidate :=
  { name := [ 'n' ], primary := [⟨[ 'a' ]⟩], featured := [⟨[ 'b' ]⟩], artistsAll := []
  , duration := some 10, downloadUrl := [], image := [], url := "" }

/-- A request with id, title, author and duration hints all present. -/
def reqFull : Req :=
  { method := "GET", id := some "abc", title := some [ 'i' ]
  , author := some [ 'j' ], duration := some 183 }

/-- A request with id and title but no author hint. -/
def reqTitleOnly : Req :=
  { method := "GET", id := some "abc", title := some [ 'i' ]
  , author := none, duration := none }

/-- A request with id only. -/
def reqIdOnly : Req :=
  { method := "GET", id := some "abc", title := none
  , author := none, duration := none }

/-- A request missing the id but carrying every hint. -/
def reqNoId : Req :=
  { method := "GET", id := none, title := some [ 'i' ]
  , author := some [ 'j' ], duration := some 183 }

/-- An environment in which every upstream fails. -/
def envAllFail : Env :=
  { saavn := none, stremio := fun _ => Outcome.netError
  , invidious := fun _ => Outcome.netError }

/-- An environment in which JioSaavn fails and the first stremio
instance answers. -/
def envStremioOk : Env :=
  { saavn := none, stremio := fun _ => Outcome.ok "B"
  , invidious := fun _ => Outcome.netError }

/-!
Infrastructure lemmas about the scorer.
-/

/-- When the token list is non-empty the match percentage is the plain
ratio. -/
lemma artistMatchPercent_of_ne (names arts : List Str) (h : names ≠ []) :
    artistMatchPercent names arts =
      some ((matchedArtists names arts : ℚ) / (names.length : ℚ)) := by
  rw [artistMatchPercent, if_neg (by simpa using h)]

/-- A defined match percentage is nonnegative. -/
lemma artistMatchPercent_nonneg {names arts : List Str} {r : ℚ}
    (h : artistMatchPercent names arts = some r) : 0 ≤ r := by
  rw [artistMatchPercent] at h
  split at h
  · exact absurd h (by simp)
  · rw [Option.some.injEq] at h
    rw [← h]
    exact div_nonneg (Nat.cast_nonneg _) (Nat.cast_nonneg _)

/-- With a non-empty token list the score is always defined and equals
the weighted sum of the three components. -/
lemma candidateScore_of_ne (names : List Str) (title : Str) (target : Int)
    (c : Candidate) (h : names ≠ []) :
    candidateScore names title target c =
      some (((matchedArtists names (currentArtists c) : ℚ) / (names.length : ℚ)) * 10 +
        durationScore (durationDiff target c) * 3 + titleMatchScore title c * 1) := by
  rw [candidateScore, artistMatchPercent_of_ne _ _ h, Option.map_some']

/-- With an empty token list the score is NaN. -/
lemma candidateScore_of_nil (title : Str) (target : Int) (c : Candidate) :
    candidateScore [] title target c = none := by
  rw [candidateScore, artistMatchPercent]
  simp

/-- The title component is at least one half. -/
lemma half_le_titleMatchScore (title : Str) (c : Candidate) :
    (1 : ℚ)/2 ≤ titleMatchScore title c := by
  rw [titleMatchScore]
  split <;> norm_num

/-- The duration component is nonnegative. -/
lemma durationScore_nonneg (d : Int) : 0 ≤ durationScore d := le_max_left _ _

/-- Every defined composite score is at least one half (in particular
it beats the initial `bestScore = -1`). -/
lemma candidateScore_lb {names : List Str} {title : Str} {target : Int}
    {c : Candidate} {s : ℚ} (h : candidateScore names title target c = some s) :
    (1 : ℚ)/2 ≤ s := by
  rw [candidateScore] at h
  rcases Option.map_eq_some'.mp h with ⟨r, hr, hs⟩
  have h0 : 0 ≤ r := artistMatchPercent_nonneg hr
  have h1 : 0 ≤ durationScore (durationDiff target c) := durationScore_nonneg _
  have h2 : (1 : ℚ)/2 ≤ titleMatchScore title c := half_le_titleMatchScore _ _
  rw [← hs]
  nlinarith

/-- Reduction of `stepBest` when the score is NaN. -/
lemma stepBest_score_none {names : List Str} {title : Str} {target : Int}
    (acc : Option Candidate × ℚ) {c : Candidate}
    (h : candidateScore names title target c = none) :
    stepBest names title target acc c = acc := by
  unfold stepBest
  rw [h]

/-- Reduction of `stepBest` when the score is defined. -/
lemma stepBest_score_some {names : List Str} {title : Str} {target : Int}
    (acc : Option Candidate × ℚ) {c : Candidate} {s : ℚ}
    (h : candidateScore names title target c = some s) :
    stepBest names title target acc c =
      if eligible names target c = true ∧ acc.2 < s then (some c, s) else acc := by
  unfold stepBest
  rw [h]

/-- Reduction of `selectBest` once the scan result is known. -/
lemma selectBest_of_findBest_some {title author : Str} {target : Int}
    {results : List Candidate} {c : Candidate} {s : ℚ}
    (h : findBest (authorNames author) title target results = (some c, s)) :
    selectBest title author target results = if s < 5 then none else some c := by
  unfold selectBest
  rw [h]

/-- Reduction of `selectBest` when the scan selected nothing. -/
lemma selectBest_of_findBest_none {title author : Str} {target : Int}
    {results : List Candidate} {s : ℚ}
    (h : findBest (authorNames author) title target results = (none, s)) :
    selectBest title author target results = none := by
  unfold selectBest
  rw [h]

/-- Full characterization of the best-of scan: either no iteration
updated the accumulator (and then every eligible, defined score in the
list is at most the incoming `bestScore`), or the scan returns the
first candidate attaining the maximum over eligible defined scores:
strictly above everything eligible before it, at least everything
eligible after it. -/
lemma foldl_stepBest_spec (names : List Str) (title : Str) (target : Int)
    (l : List Candidate) : ∀ b : Option Candidate × ℚ,
    (List.foldl (stepBest names title target) b l = b ∧
      ∀ c ∈ l, eligible names target c = true →
        ∀ s, candidateScore names title target c = some s → s ≤ b.2)
    ∨ (∃ l₁ c l₂ s, l = l₁ ++ c :: l₂ ∧
        List.foldl (stepBest names title target) b l = (some c, s) ∧
        eligible names target c = true ∧
        candidateScore names title target c = some s ∧ b.2 < s ∧
        (∀ d ∈ l₁, eligible names target d = true →
          ∀ t, candidateScore names title target d = some t → t < s) ∧
        (∀ d ∈ l₂, eligible names target d = true →
          ∀ t, candidateScore names title target d = some t → t ≤ s)) := by
  induction l with
  | nil =>
    intro b
    exact Or.inl ⟨rfl, by simp⟩
  | cons c l ih =>
    intro b
    rw [List.foldl_cons]
    rcases hsc : candidateScore names title target c with _ | s
    · rw [stepBest_score_none b hsc]
      rcases ih b with ⟨heq, hall⟩ | ⟨l₁, c', l₂, s', hl, hres, he, hs', hb, h₁, h₂⟩
      · refine Or.inl ⟨heq, ?_⟩
        intro d hd he' t ht
        rcases List.mem_cons.mp hd with rfl | hd
        · rw [hsc] at ht
          exact absurd ht (by simp)
        · exact hall d hd he' t ht
      · refine Or.inr ⟨c :: l₁, c', l₂, s', by rw [hl, List.cons_append], hres, he, hs', hb, ?_, h₂⟩
        intro d hd he' t ht
        rcases List.mem_cons.mp hd with rfl | hd
        · rw [hsc] at ht
          exact absurd ht (by simp)
        · exact h₁ d hd he' t ht
    · rw [stepBest_score_some b hsc]
      by_cases hcond : eligible names target c = true ∧ b.2 < s
      · rw [if_pos hcond]
        rcases ih (some c, s) with ⟨heq, hall⟩ | ⟨l₁, c', l₂, s', hl, hres, he, hs', hb, h₁, h₂⟩
        · refine Or.inr ⟨[], c, l, s, by simp, by rw [heq], hcond.1, hsc, hcond.2, by simp, ?_⟩
          intro d hd he' t ht
          exact hall d hd he' t ht
        · refine Or.inr ⟨c :: l₁, c', l₂, s', by rw [hl, List.cons_append], hres, he, hs',
            lt_trans hcond.2 hb, ?_, h₂⟩
          intro d hd he' t ht
          rcases List.mem_cons.mp hd with rfl | hd
          · rw [hsc] at ht
            rw [Option.some.injEq] at ht
            rw [← ht]
            exact hb
          · exact h₁ d hd he' t ht
      · rw [if_neg hcond]
        rcases ih b with ⟨heq, hall⟩ | ⟨l₁, c', l₂, s', hl, hres, he, hs', hb, h₁, h₂⟩
        · refine Or.inl ⟨heq, ?_⟩
          intro d hd he' t ht
          rcases List.mem_cons.mp hd with rfl | hd
          · rw [hsc] at ht
            rw [Option.some.injEq] at ht
            rw [← ht]
            by_contra hgt
            exact hcond ⟨he', by linarith [not_le.mp hgt]⟩
          · exact hall d hd he' t ht
        · refine Or.inr ⟨c :: l₁, c', l₂, s', by rw [hl, List.cons_append], hres, he, hs', hb, ?_, h₂⟩
          intro d hd he' t ht
          rcases List.mem_cons.mp hd with rfl | hd
          · rw [hsc] at ht
            rw [Option.some.injEq] at ht
            rw [← ht]
            by_contra hgt
            exact hcond ⟨he', lt_of_lt_of_le hb (not_lt.mp hgt)⟩
          · exact h₁ d hd he' t ht

/-- Reduction of `eligible` when the percentage is NaN. -/
lemma eligible_of_percent_none {names : List Str} {target : Int} {c : Candidate}
    (h : artistMatchPercent names (currentArtists c) = none) :
    eligible names target c = decide (durationDiff target c < 10) := by
  unfold eligible
  rw [h, Bool.false_or]

/-- Reduction of `eligible` when the percentage is defined. -/
lemma eligible_of_percent_some {names : List Str} {target : Int} {c : Candidate} {r : ℚ}
    (h : artistMatchPercent names (currentArtists c) = some r) :
    eligible names target c =
      (decide ((1 : ℚ)/2 ≤ r) || decide (durationDiff target c < 10)) := by
  unfold eligible
  rw [h]

/-- The scorer rejects everything exactly when every eligible candidate
with a defined composite scores strictly below 5. -/
lemma selectBest_eq_none_iff (title author : Str) (target : Int)
    (results : List Candidate) :
    selectBest title author target results = none ↔
      ∀ c ∈ results, eligible (authorNames author) target c = true →
        ∀ s, candidateScore (authorNames author) title target c = some s → s < 5 := by
  rcases foldl_stepBest_spec (authorNames author) title target results (none, -1) with
    ⟨heq, hall⟩ | ⟨l₁, c, l₂, s, hl, hres, he, hs, _, h₁, h₂⟩
  · have hf : findBest (authorNames author) title target results = (none, -1) := heq
    rw [selectBest_of_findBest_none hf]
    constructor
    · intro _ c hc hel s hsc
      have hle := hall c hc hel s hsc
      have hlb := candidateScore_lb hsc
      norm_num at hle
      linarith
    · intro _
      rfl
  · have hf : findBest (authorNames author) title target results = (some c, s) := hres
    rw [selectBest_of_findBest_some hf]
    constructor
    · intro hnone c' hc' hel' s' hsc'
      by_cases h5 : s < 5
      · subst hl
        rcases List.mem_append.mp hc' with hmem | hmem
        · exact lt_trans (h₁ c' hmem hel' s' hsc') h5
        · rcases List.mem_cons.mp hmem with rfl | hmem
          · rw [hs, Option.some.injEq] at hsc'
            rw [← hsc']
            exact h5
          · exact lt_of_le_of_lt (h₂ c' hmem hel' s' hsc') h5
      · rw [if_neg h5] at hnone
        exact absurd hnone (by simp)
    · intro hall5
      have h5 : s < 5 := hall5 c (by rw [hl]; simp) he s hs
      rw [if_pos h5]

/-- C1.  In the full scoring pass (author tokens present), a candidate
is eligible exactly if its match ratio is defined and at least 0.5 or
its duration difference is below 10; the scorer rejects exactly when
every eligible candidate scores below 5; and in particular a candidate
with ratio at least 0.5 and composite at least 5 precludes rejection. -/
theorem claim_C1_eligible_and_rejection (title author : Str) (target : Int)
    (results : List Candidate) (_h : authorNames author ≠ []) :
    (∀ c : Candidate, eligible (authorNames author) target c = true ↔
      ((∃ r, artistMatchPercent (authorNames author) (currentArtists c) = some r ∧
          (1 : ℚ)/2 ≤ r) ∨ durationDiff target c < 10))
  ∧ (selectBest title author target results = none ↔
      ∀ c ∈ results, eligible (authorNames author) target c = true →
        ∀ s, candidateScore (authorNames author) title target c = some s → s < 5)
  ∧ (∀ c ∈ results, ∀ r,
      artistMatchPercent (authorNames author) (currentArtists c) = some r →
      (1 : ℚ)/2 ≤ r →
      ∀ s, candidateScore (authorNames author) title target c = some s →
      5 ≤ s → selectBest title author target results ≠ none) := by
  refine ⟨?_, selectBest_eq_none_iff title author target results, ?_⟩
  · intro c
    rcases hp : artistMatchPercent (authorNames author) (currentArtists c) with _ | r
    · rw [eligible_of_percent_none hp]
      simp [hp]
    · rw [eligible_of_percent_some hp]
      simp [hp]
  · intro c hc r hr hhalf s hsc h5 hnone
    have hel : eligible (authorNames author) target c = true := by
      rw [eligible_of_percent_some hr, Bool.or_eq_true, decide_eq_true_eq]
      exact Or.inl hhalf
    have := (selectBest_eq_none_iff title author target results).mp hnone c hc hel s hsc
    linarith

/-- Witness for C1: a singleton list whose candidate has ratio 1 and
composite 13.9 is never rejected. -/
theorem claim_C1_witness :
    authorNames [ 'j' ] ≠ [] ∧ selectBest [ 'i' ] [ 'j' ] 183 [candJ] ≠ none := by
  have h : authorNames [ 'j' ] ≠ [] := by decide
  have hm : matchedArtists (authorNames [ 'j' ]) (currentArtists candJ) = 1 := by decide
  have hlen : (authorNames [ 'j' ]).length = 1 := by decide
  have hr : artistMatchPercent (authorNames [ 'j' ]) (currentArtists candJ) = some 1 := by
    rw [artistMatchPercent_of_ne _ _ h, hm, hlen]
    norm_num
  have hd : durationDiff 183 candJ = 2 := by decide
  have ht : titleMatchScore [ 'i' ] candJ = 1 := by simp +decide [titleMatchScore]
  have hs : candidateScore (authorNames [ 'j' ]) [ 'i' ] 183 candJ = some (139/10) := by
    rw [candidateScore_of_ne _ _ _ _ h, hm, hlen, hd, ht, durationScore]
    rw [max_eq_right (by norm_num : (0 : ℚ) ≤ 1 - ((2 : Int) : ℚ)/60)]
    norm_num
  exact ⟨h, (claim_C1_eligible_and_rejection [ 'i' ] [ 'j' ] 183 [candJ] h).2.2 candJ
    (by simp) 1 hr (by norm_num) (139/10) hs (by norm_num)⟩

/-- C4.  A selected candidate is an element of the input list, is
eligible, and attains the maximum composite among eligible candidates,
strictly beating every eligible candidate before it (ties keep the
earliest) and at least matching every eligible candidate after it. -/
theorem claim_C4_stable_argmax (title author : Str) (target : Int)
    (results : List Candidate) (c : Candidate)
    (h : selectBest title author target results = some c) :
    c ∈ results ∧ ∃ l₁ l₂ s, results = l₁ ++ c :: l₂ ∧
      eligible (authorNames author) target c = true ∧
      candidateScore (authorNames author) title target c = some s ∧
      (∀ d ∈ l₁, eligible (authorNames author) target d = true →
        ∀ t, candidateScore (authorNames author) title target d = some t → t < s) ∧
      (∀ d ∈ l₂, eligible (authorNames author) target d = true →
        ∀ t, candidateScore (authorNames author) title target d = some t → t ≤ s) := by
  rcases foldl_stepBest_spec (authorNames author) title target results (none, -1) with
    ⟨heq, _⟩ | ⟨l₁, c', l₂, s, hl, hres, he, hs, _, h₁, h₂⟩
  · have hf : findBest (authorNames author) title target results = (none, -1) := heq
    rw [selectBest_of_findBest_none hf] at h
    exact absurd h (by simp)
  · have hf : findBest (authorNames author) title target results = (some c', s) := hres
    rw [selectBest_of_findBest_some hf] at h
    by_cases h5 : s < 5
    · rw [if_pos h5] at h
      exact absurd h (by simp)
    · rw [if_neg h5, Option.some.injEq] at h
      subst h
      exact ⟨by rw [hl]; simp, l₁, l₂, s, hl, he, hs, h₁, h₂⟩

/-- Witness for C4 at a two-candidate list in which the second, higher
scoring candidate is selected. -/
theorem claim_C4_witness :
    selectBest [ 'i' ] [ 'j' ] 183 [candA, candJ] = some candJ ∧
    candJ ∈ [candA, candJ] := by
  have h : authorNames [ 'j' ] ≠ [] := by decide
  have hmA : matchedArtists (authorNames [ 'j' ]) (currentArtists candA) = 0 := by decide
  have hlen : (authorNames [ 'j' ]).length = 1 := by decide
  have hdA : durationDiff 183 candA = 83 := by decide
  have htA : titleMatchScore [ 'i' ] candA = 1/2 := by simp +decide [titleMatchScore]
  have hsA : candidateScore (authorNames [ 'j' ]) [ 'i' ] 183 candA = some (1/2) := by
    rw [candidateScore_of_ne _ _ _ _ h, hmA, hlen, hdA, htA, durationScore]
    rw [max_eq_left (by norm_num : (1 : ℚ) - ((83 : Int) : ℚ)/60 ≤ 0)]
    norm_num
  have helA : eligible (authorNames [ 'j' ]) 183 candA = false := by
    rw [eligible_of_percent_some (by rw [artistMatchPercent_of_ne _ _ h, hmA, hlen])]
    rw [Bool.or_eq_false_iff]
    refine ⟨by rw [decide_eq_false_iff_not]; norm_num, by decide⟩
  have hm : matchedArtists (authorNames [ 'j' ]) (currentArtists candJ) = 1 := by decide
  have hd : durationDiff 183 candJ = 2 := by decide
  have ht : titleMatchScore [ 'i' ] candJ = 1 := by simp +decide [titleMatchScore]
  have hs : candidateScore (authorNames [ 'j' ]) [ 'i' ] 183 candJ = some (139/10) := by
    rw [candidateScore_of_ne _ _ _ _ h, hm, hlen, hd, ht, durationScore]
    rw [max_eq_right (by norm_num : (0 : ℚ) ≤ 1 - ((2 : Int) : ℚ)/60)]
    norm_num
  have hel : eligible (authorNames [ 'j' ]) 183 candJ = true := by
    rw [eligible_of_percent_some (by rw [artistMatchPercent_of_ne _ _ h, hm, hlen])]
    rw [Bool.or_eq_true, decide_eq_true_eq]
    exact Or.inl (by norm_num)
  have hsel : selectBest [ 'i' ] [ 'j' ] 183 [candA, candJ] = some candJ := by
    have hf : findBest (authorNames [ 'j' ]) [ 'i' ] 183 [candA, candJ] =
        (some candJ, 139/10) := by
      show List.foldl (stepBest (authorNames [ 'j' ]) [ 'i' ] 183) (none, -1) [candA, candJ] =
        (some candJ, 139/10)
      rw [List.foldl_cons, stepBest_score_some _ hsA, if_neg (by rw [helA]; simp)]
      rw [List.foldl_cons, List.foldl_nil, stepBest_score_some _ hs]
      rw [if_pos ⟨hel, by norm_num⟩]
    rw [selectBest_of_findBest_some hf]
    norm_num
  refine ⟨hsel, ?_⟩
  have := (claim_C4_stable_argmax [ 'i' ] [ 'j' ] 183 [candA, candJ] candJ hsel).1
  exact this

/-- The scan never updates when every score is NaN. -/
lemma foldl_stepBest_of_nil_names (author : Str) (title : Str) (target : Int)
    (h : authorNames author = []) :
    ∀ (l : List Candidate) (b : Option Candidate × ℚ),
      List.foldl (stepBest (authorNames author) title target) b l = b := by
  intro l
  induction l with
  | nil => intro b; rfl
  | cons c l ih =>
    intro b
    rw [List.foldl_cons, stepBest_score_none b (by rw [h]; exact candidateScore_of_nil _ _ _)]
    exact ih b

/-- C10.  When the author hint is truthy but tokenizes to nothing (only
commas, ampersands and whitespace), its match ratio is a zero-by-zero
division (NaN), every score comparison is false, the scan never selects
a candidate, and the full pass — hence metadata-search — always fails. -/
theorem claim_C10_empty_tokens (title author : Str) (target : Int)
    (results : List Candidate) (h : authorNames author = []) (ha : author ≠ []) :
    selectBest title author target results = none ∧
    searchJioSaavn title (some author) (some target) results = none := by
  have hsel : selectBest title author target results = none := by
    have hf : findBest (authorNames author) title target results = (none, -1) :=
      foldl_stepBest_of_nil_names author title target h results (none, -1)
    exact selectBest_of_findBest_none hf
  refine ⟨hsel, ?_⟩
  cases results with
  | nil => rfl
  | cons r0 rest =>
    have htr : truthyStr (some author) = true := by
      cases author with
      | nil => exact absurd rfl ha
      | cons a as => rfl
    show (if truthyStr (some author) = true ∧ (some target).isSome = true then
        Option.map deriveResult
          (selectBest title ((some author).getD []) ((some target).getD 0) (r0 :: rest))
      else some (deriveResult r0)) = none
    rw [if_pos ⟨htr, rfl⟩]
    show (selectBest title author target (r0 :: rest)).map deriveResult = none
    rw [hsel]
    rfl

/-- Witness for C10: the author hint `", &"` is truthy yet tokenizes to
nothing, and a candidate whose duration matches the hint exactly is
still rejected. -/
theorem claim_C10_witness :
    authorNames [ ',', ' ', '&' ] = [] ∧ ([ ',', ' ', '&' ] : Str) ≠ [] ∧
    selectBest [ 'i' ] [ ',', ' ', '&' ] 181 [candJ] = none ∧
    searchJioSaavn [ 'i' ] (some [ ',', ' ', '&' ]) (some 181) [candJ] = none := by
  have h : authorNames [ ',', ' ', '&' ] = [] := by decide
  have ha : ([ ',', ' ', '&' ] : Str) ≠ [] := by decide
  have := claim_C10_empty_tokens [ 'i' ] [ ',', ' ', '&' ] 181 [candJ] h ha
  exact ⟨h, ha, this.1, this.2⟩

/-- C3 counterexample.  A candidate with a present-but-zero duration is
scored with the 999 sentinel (JS `result.duration ?` truthiness), so
its composite is 11, while the formula of the claim (sentinel only for
a missing duration) yields 11.5. -/
theorem claim_C3_counterexample :
    candidateScore (authorNames [ 'x' ]) [ 't' ] 50 candZero = some 11 ∧
    specComposite (authorNames [ 'x' ]) [ 't' ] 50 candZero = 23/2 ∧
    (11 : ℚ) ≠ 23/2 ∧
    candidateScore (authorNames [ 'x' ]) [ 't' ] 50 candZero ≠
      some (specComposite (authorNames [ 'x' ]) [ 't' ] 50 candZero) := by
  have h : authorNames [ 'x' ] ≠ [] := by decide
  have hm : matchedArtists (authorNames [ 'x' ]) (currentArtists candZero) = 1 := by decide
  have hlen : (authorNames [ 'x' ]).length = 1 := by decide
  have hd : durationDiff 50 candZero = 999 := by decide
  have ht : titleMatchScore [ 't' ] candZero = 1 := by simp +decide [titleMatchScore]
  have h1 : candidateScore (authorNames [ 'x' ]) [ 't' ] 50 candZero = some 11 := by
    rw [candidateScore_of_ne _ _ _ _ h, hm, hlen, hd, ht, durationScore]
    rw [max_eq_left (by norm_num : (1 : ℚ) - ((999 : Int) : ℚ)/60 ≤ 0)]
    norm_num
  have h2 : specComposite (authorNames [ 'x' ]) [ 't' ] 50 candZero = 23/2 := by
    have hsd : specDurationDiff 50 candZero = 50 := by decide
    rw [specComposite, specRatio, hm, hlen, hsd, ht]
    rw [max_eq_right (by norm_num : (0 : ℚ) ≤ 1 - ((50 : Int) : ℚ)/60)]
    norm_num
  refine ⟨h1, h2, by norm_num, ?_⟩
  rw [h1, h2]
  intro hcontra
  rw [Option.some.injEq] at hcontra
  norm_num at hcontra

/-- C3 amended.  With at least one author token, the composite equals
`10 * ratio + 3 * max 0 (1 - diff/60) + titleScore` where `diff` uses
the sentinel 999 for a missing or zero (JS-falsy) candidate duration. -/
theorem claim_C3_amended_composite (names : List Str) (title : Str) (target : Int)
    (c : Candidate) (h : names ≠ []) :
    candidateScore names title target c =
      some (amendedComposite names title target c) := by
  rw [candidateScore_of_ne _ _ _ _ h, amendedComposite, specRatio, durationScore]
  refine congrArg some ?_
  ring

/-- Witness for C3: the amended formula at a concrete candidate, whose
composite is 13.9 as in the specification's scenario B. -/
theorem claim_C3_amended_witness :
    candidateScore (authorNames [ 'j' ]) [ 'i' ] 183 candJ =
      some (amendedComposite (authorNames [ 'j' ]) [ 'i' ] 183 candJ) ∧
    amendedComposite (authorNames [ 'j' ]) [ 'i' ] 183 candJ = 139/10 := by
  refine ⟨claim_C3_amended_composite _ _ _ _ (by decide), ?_⟩
  have hm : matchedArtists (authorNames [ 'j' ]) (currentArtists candJ) = 1 := by decide
  have hlen : (authorNames [ 'j' ]).length = 1 := by decide
  have hd : durationDiff 183 candJ = 2 := by decide
  have ht : titleMatchScore [ 'i' ] candJ = 1 := by simp +decide [titleMatchScore]
  rw [amendedComposite, specRatio, hm, hlen, hd, ht]
  rw [max_eq_right (by norm_num : (0 : ℚ) ≤ 1 - ((2 : Int) : ℚ)/60)]
  norm_num

/-- Reduction of part_000's `searchJioSaavn` on a non-empty list. -/
lemma searchJioSaavn_cons (title : Str) (author : Option Str) (duration : Option Int)
    (r0 : Candidate) (rest : List Candidate) :
    searchJioSaavn title author duration (r0 :: rest) =
      if truthyStr author = true ∧ duration.isSome = true then
        (selectBest title (author.getD []) (duration.getD 0) (r0 :: rest)).map deriveResult
      else some (deriveResult r0) := rfl

/-- Reduction of part_001's `searchJioSaavn` on a non-empty list. -/
lemma V1_searchJioSaavn_cons (title : Str) (author : Option Str) (duration : Option Int)
    (r0 : Candidate) (rest : List Candidate) :
    V1.searchJioSaavn title author duration (r0 :: rest) =
      if truthyStr author = true ∧ duration.isSome = true then
        some (deriveResult (V1.bestMatch title (author.getD []) (duration.getD 0) r0 rest))
      else some (deriveResult r0) := rfl

/-- Reduction of audio.js's `searchJioSaavn` on a non-empty list. -/
lemma Api_searchJioSaavn_cons (title : Str) (author : Option Str) (duration : Option Int)
    (r0 : Candidate) (rest : List Candidate) :
    Api.searchJioSaavn title author duration (r0 :: rest) =
      some (Api.deriveResult (Api.bestMatch duration r0 rest)) := rfl

/-- C2 counterexample.  In the audio.js version, with the author hint
absent but a duration hint of 50 present, a two-candidate list is NOT
resolved to its first candidate: the reduce selects the
closest-duration candidate. -/
theorem claim_C2_counterexample :
    Api.searchJioSaavn [ 't' ] none (some 50) [candA, candB] =
      some (Api.deriveResult candB) ∧
    Api.deriveResult candB ≠ Api.deriveResult candA ∧
    Api.searchJioSaavn [ 't' ] none (some 50) [candA, candB] ≠
      some (Api.deriveResult candA) := by
  refine ⟨rfl, by decide, by decide⟩

/-- C2 amended.  The unnamed versions return the first candidate
whenever the author hint or the duration hint is absent; the audio.js
version does so whenever the duration hint is absent or the list has a
single element, but scores by duration alone — ignoring the author
hint — once a duration hint is present. -/
theorem claim_C2_first_candidate (title : Str) (author : Option Str)
    (duration : Option Int) (r0 : Candidate) (rest : List Candidate) :
    ((author = none ∨ duration = none) →
      searchJioSaavn title author duration (r0 :: rest) = some (deriveResult r0))
  ∧ ((author = none ∨ duration = none) →
      V1.searchJioSaavn title author duration (r0 :: rest) = some (deriveResult r0))
  ∧ (duration = none →
      Api.searchJioSaavn title author duration (r0 :: rest) = some (Api.deriveResult r0))
  ∧ (rest = [] →
      Api.searchJioSaavn title author duration (r0 :: rest) = some (Api.deriveResult r0)) := by
  refine ⟨?_, ?_, ?_, ?_⟩
  · intro h
    rw [searchJioSaavn_cons, if_neg]
    rcases h with rfl | rfl
    · simp [truthyStr]
    · simp
  · intro h
    rw [V1_searchJioSaavn_cons, if_neg]
    rcases h with rfl | rfl
    · simp [truthyStr]
    · simp
  · intro h
    subst h
    rw [Api_searchJioSaavn_cons]
    rfl
  · intro h
    subst h
    rw [Api_searchJioSaavn_cons]
    rcases duration with _ | t
    · rfl
    · rfl

/-- Witness for C2 as amended, at concrete inputs. -/
theorem claim_C2_first_candidate_witness :
    searchJioSaavn [ 't' ] none (some 50) [candA, candB] = some (deriveResult candA) ∧
    V1.searchJioSaavn [ 't' ] none (some 50) [candA, candB] = some (deriveResult candA) ∧
    Api.searchJioSaavn [ 't' ] none none [candA, candB] = some (Api.deriveResult candA) ∧
    Api.searchJioSaavn [ 't' ] none (some 50) [candA] = some (Api.deriveResult candA) :=
  ⟨(claim_C2_first_candidate [ 't' ] none (some 50) candA [candB]).1 (Or.inl rfl),
   (claim_C2_first_candidate [ 't' ] none (some 50) candA [candB]).2.1 (Or.inl rfl),
   (claim_C2_first_candidate [ 't' ] none none candA [candB]).2.2.1 rfl,
   (claim_C2_first_candidate [ 't' ] none (some 50) candA []).2.2.2 rfl⟩

/-- The length-guarded last entry equals `getLast?`. -/
lemma dite_getLast_url (l : List UrlEntry) :
    (if h : 0 < l.length then some (l.getLast (List.length_pos.mp h)).url else none) =
      (l.getLast?).map (fun e => e.url) := by
  by_cases h : 0 < l.length
  · rw [dif_pos h, List.getLast?_eq_getLast l (List.length_pos.mp h), Option.map_some']
  · rw [dif_neg h]
    have hl : l = [] := by
      rcases l with _ | ⟨e, l⟩
      · rfl
      · exact absurd (by simp) h
    rw [hl]
    rfl

/-- C9 counterexample.  In the audio.js version a candidate with one
primary artist `a` and one featured artist `b` yields the artist string
`a`, not the comma-joined `a, b` the claim states. -/
theorem claim_C9_counterexample :
    (Api.deriveResult candAB).artist = [ 'a' ] ∧
    joinComma ((candAB.primary ++ candAB.featured).map (fun a => a.name)) =
      [ 'a', ',', ' ', 'b' ] ∧
    (Api.deriveResult candAB).artist ≠
      joinComma ((candAB.primary ++ candAB.featured).map (fun a => a.name)) := by
  refine ⟨?_, by decide, by decide⟩
  rfl

/-- C9 amended.  In every version the download URL and thumbnail come
from the last entries of the respective variant lists (none when the
list is empty).  In the unnamed versions the artist string is the
comma-joined primary-then-featured names, or `Unknown` when both lists
are empty; in the audio.js version it is the joined primary names when
that join is non-empty, else the joined `artists.all` names when
non-empty, else `Unknown` — featured artists are never appended. -/
theorem claim_C9_derived_result (c : Candidate) :
    (deriveResult c).downloadUrl = (c.downloadUrl.getLast?).map (fun e => e.url)
  ∧ (deriveResult c).thumbnail = (c.image.getLast?).map (fun e => e.url)
  ∧ (deriveResult c).artist =
      (if c.primary ++ c.featured = [] then ( "Unknown").toList
       else joinComma ((c.primary ++ c.featured).map (fun a => a.name)))
  ∧ (Api.deriveResult c).downloadUrl = (c.downloadUrl.getLast?).map (fun e => e.url)
  ∧ (Api.deriveResult c).thumbnail = (c.image.getLast?).map (fun e => e.url)
  ∧ (Api.deriveResult c).artist =
      (if joinComma (c.primary.map (fun a => a.name)) ≠ [] then
        joinComma (c.primary.map (fun a => a.name))
       else if joinComma (c.artistsAll.map (fun a => a.name)) ≠ [] then
        joinComma (c.artistsAll.map (fun a => a.name))
       else ( "Unknown").toList) := by
  refine ⟨dite_getLast_url _, dite_getLast_url _, ?_, dite_getLast_url _,
    dite_getLast_url _, ?_⟩
  · show (if 0 < ((c.primary.map (fun a => a.name)) ++
        (c.featured.map (fun a => a.name))).length then
      joinComma ((c.primary.map (fun a => a.name)) ++ (c.featured.map (fun a => a.name)))
      else ( "Unknown").toList) = _
    rw [← List.map_append]
    by_cases h : c.primary ++ c.featured = []
    · rw [if_pos h, h]
      rfl
    · rw [if_neg h, if_pos]
      exact List.length_pos.mpr (by simpa using h)
  · show (if 0 < (joinComma (c.primary.map (fun a => a.name))).length then
        joinComma (c.primary.map (fun a => a.name))
      else if 0 < (joinComma (c.artistsAll.map (fun a => a.name))).length then
        joinComma (c.artistsAll.map (fun a => a.name))
      else ( "Unknown").toList) = _
    by_cases hp : joinComma (c.primary.map (fun a => a.name)) = []
    · rw [hp]
      by_cases ha : joinComma (c.artistsAll.map (fun a => a.name)) = []
      · rw [ha]
        rfl
      · rw [if_neg (by simp), if_pos (List.length_pos.mpr ha), if_neg (by simp [hp])]
        rw [if_pos ha]
    · rw [if_pos (List.length_pos.mpr hp), if_pos hp]

/-- Reduction of the pool loop when the attempt in front succeeds. -/
lemma fetchFromPool_cons_ok {outcomes : Nat → Outcome} {i : Nat} {b : String}
    (a : String) (rest : List String) (h : outcomes i = Outcome.ok b) :
    fetchFromPool outcomes (a :: rest) i = some (a, b) := by
  simp only [fetchFromPool, h]

/-- Reduction of the pool loop when the attempt in front fails. -/
lemma fetchFromPool_cons_fail {outcomes : Nat → Outcome} {i : Nat}
    (a : String) (rest : List String) (h : (outcomes i).isOk = false) :
    fetchFromPool outcomes (a :: rest) i = fetchFromPool outcomes rest (i + 1) := by
  rcases ho : outcomes i with b | st | _ | _
  · rw [ho] at h
    exact absurd h (by simp [Outcome.isOk])
  · simp only [fetchFromPool, ho]
  · simp only [fetchFromPool, ho]
  · simp only [fetchFromPool, ho]

/-- Reduction of the attempt list when the attempt in front succeeds. -/
lemma poolAttempts_cons_ok {outcomes : Nat → Outcome} {i : Nat} {b : String}
    (a : String) (rest : List String) (h : outcomes i = Outcome.ok b) :
    poolAttempts outcomes (a :: rest) i = [a] := by
  simp only [poolAttempts, h]

/-- Reduction of the attempt list when the attempt in front fails. -/
lemma poolAttempts_cons_fail {outcomes : Nat → Outcome} {i : Nat}
    (a : String) (rest : List String) (h : (outcomes i).isOk = false) :
    poolAttempts outcomes (a :: rest) i = a :: poolAttempts outcomes rest (i + 1) := by
  rcases ho : outcomes i with b | st | _ | _
  · rw [ho] at h
    exact absurd h (by simp [Outcome.isOk])
  · simp only [poolAttempts, ho]
  · simp only [poolAttempts, ho]
  · simp only [poolAttempts, ho]

/-- The pool loop returns `some (inst, body)` exactly when `inst` sits
at the first position (from `i` on) whose attempt succeeds, with `body`
its response. -/
lemma fetchFromPool_eq_some_iff (outcomes : Nat → Outcome) :
    ∀ (l : List String) (i : Nat) (inst body : String),
      fetchFromPool outcomes l i = some (inst, body) ↔
        ∃ k, outcomes (i + k) = Outcome.ok body ∧ l[k]? = some inst ∧
          ∀ j < k, (outcomes (i + j)).isOk = false := by
  intro l
  induction l with
  | nil =>
    intro i inst body
    constructor
    · intro h
      exact absurd h (by simp [fetchFromPool])
    · rintro ⟨k, _, hget, _⟩
      simp at hget
  | cons a rest ih =>
    intro i inst body
    by_cases ho : (outcomes i).isOk = true
    · rcases hoe : outcomes i with b | st | _ | _ <;>
        rw [hoe] at ho <;> simp [Outcome.isOk] at ho
      rw [fetchFromPool_cons_ok a rest hoe]
      constructor
      · intro h
        rw [Option.some.injEq, Prod.mk.injEq] at h
        exact ⟨0, by rw [Nat.add_zero, hoe, h.2], by simp [h.1], by omega⟩
      · rintro ⟨k, hk, hget, hbefore⟩
        rcases k with _ | k
        · rw [Nat.add_zero, hoe, Outcome.ok.injEq] at hk
          simp only [List.getElem?_cons_zero, Option.some.injEq] at hget
          rw [hget, hk]
        · have h0 := hbefore 0 (Nat.succ_pos k)
          rw [Nat.add_zero, hoe] at h0
          simp [Outcome.isOk] at h0
    · have ho' : (outcomes i).isOk = false := by
        revert ho
        cases (outcomes i).isOk <;> simp
      rw [fetchFromPool_cons_fail a rest ho', ih (i + 1) inst body]
      constructor
      · rintro ⟨k, hk, hget, hbefore⟩
        refine ⟨k + 1, ?_, by simpa using hget, ?_⟩
        · rw [show i + (k + 1) = i + 1 + k by omega]
          exact hk
        · intro j hj
          rcases j with _ | j
          · rw [Nat.add_zero]
            exact ho'
          · rw [show i + (j + 1) = i + 1 + j by omega]
            exact hbefore j (by omega)
      · rintro ⟨k, hk, hget, hbefore⟩
        rcases k with _ | k
        · rw [Nat.add_zero] at hk
          rw [hk] at ho'
          simp [Outcome.isOk] at ho'
        · refine ⟨k, ?_, by simpa using hget, ?_⟩
          · rw [show i + 1 + k = i + (k + 1) by omega]
            exact hk
          · intro j hj
            rw [show i + 1 + j = i + (j + 1) by omega]
            exact hbefore (j + 1) (by omega)

/-- The pool loop exhausts exactly when every attempt fails. -/
lemma fetchFromPool_eq_none_iff (outcomes : Nat → Outcome) :
    ∀ (l : List String) (i : Nat),
      fetchFromPool outcomes l i = none ↔
        ∀ j < l.length, (outcomes (i + j)).isOk = false := by
  intro l
  induction l with
  | nil =>
    intro i
    simp [fetchFromPool]
  | cons a rest ih =>
    intro i
    by_cases ho : (outcomes i).isOk = true
    · rcases hoe : outcomes i with b | st | _ | _ <;>
        rw [hoe] at ho <;> simp [Outcome.isOk] at ho
      rw [fetchFromPool_cons_ok a rest hoe]
      constructor
      · intro h
        exact absurd h (by simp)
      · intro h
        have h0 := h 0 (by simp)
        rw [Nat.add_zero, hoe] at h0
        simp [Outcome.isOk] at h0
    · have ho' : (outcomes i).isOk = false := by
        revert ho
        cases (outcomes i).isOk <;> simp
      rw [fetchFromPool_cons_fail a rest ho', ih (i + 1)]
      constructor
      · intro h j hj
        rcases j with _ | j
        · rw [Nat.add_zero]
          exact ho'
        · rw [show i + (j + 1) = i + 1 + j by omega]
          exact h j (by simpa using hj)
      · intro h j hj
        rw [show i + 1 + j = i + (j + 1) by omega]
        exact h (j + 1) (by simpa using hj)

/-- The attempted instances always form an initial segment of the
configured list. -/
lemma poolAttempts_eq_take (outcomes : Nat → Outcome) :
    ∀ (l : List String) (i : Nat),
      ∃ n, n ≤ l.length ∧ poolAttempts outcomes l i = l.take n := by
  intro l
  induction l with
  | nil =>
    intro i
    exact ⟨0, by simp, rfl⟩
  | cons a rest ih =>
    intro i
    by_cases ho : (outcomes i).isOk = true
    · rcases hoe : outcomes i with b | st | _ | _ <;>
        rw [hoe] at ho <;> simp [Outcome.isOk] at ho
      exact ⟨1, by simp, by rw [poolAttempts_cons_ok a rest hoe]; rfl⟩
    · have ho' : (outcomes i).isOk = false := by
        revert ho
        cases (outcomes i).isOk <;> simp
      rcases ih (i + 1) with ⟨n, hn, heq⟩
      exact ⟨n + 1, by simpa using hn,
        by rw [poolAttempts_cons_fail a rest ho', heq, List.take_succ_cons]⟩

/-- When the pool exhausts, every configured instance was attempted. -/
lemma poolAttempts_of_none (outcomes : Nat → Outcome) :
    ∀ (l : List String) (i : Nat),
      fetchFromPool outcomes l i = none → poolAttempts outcomes l i = l := by
  intro l
  induction l with
  | nil =>
    intro i _
    rfl
  | cons a rest ih =>
    intro i h
    by_cases ho : (outcomes i).isOk = true
    · rcases hoe : outcomes i with b | st | _ | _ <;>
        rw [hoe] at ho <;> simp [Outcome.isOk] at ho
      rw [fetchFromPool_cons_ok a rest hoe] at h
      exact absurd h (by simp)
    · have ho' : (outcomes i).isOk = false := by
        revert ho
        cases (outcomes i).isOk <;> simp
      rw [fetchFromPool_cons_fail a rest ho'] at h
      rw [poolAttempts_cons_fail a rest ho', ih (i + 1) h]

/-- C6 counterexample.  In the audio.js version the stremio instance
list contains `ubiquitous-rugelach-b30b3f` twice; when every attempt
fails, that instance is attempted twice within the one resolution
request, so the attempted list is not duplicate-free. -/
theorem claim_C6_counterexample :
    poolAttempts (fun _ => Outcome.netError) Api.STREMIO_INSTANCES 0 =
      Api.STREMIO_INSTANCES ∧
    Api.STREMIO_INSTANCES.count "https://ubiquitous-rugelach-b30b3f.netlify.app" = 2 ∧
    (poolAttempts (fun _ => Outcome.netError) Api.STREMIO_INSTANCES 0).count
      "https://ubiquitous-rugelach-b30b3f.netlify.app" = 2 ∧
    ¬ (poolAttempts (fun _ => Outcome.netError) Api.STREMIO_INSTANCES 0).Nodup := by
  refine ⟨rfl, by decide, by decide, by decide⟩

/-- C6 amended.  The pool loop attempts the configured entries in fixed
list order, each list position at most once (the attempted instances
are an initial segment of the list — an instance URL occurring twice in
the list, as in audio.js's stremio pool, can thus be attempted once per
occurrence); it short-circuits on the first position whose attempt
returns a 2xx parseable response, skipping every earlier failure of any
kind; and it reports exhaustion exactly when every position failed, in
which case the whole list was attempted. -/
theorem claim_C6_pool_adapter (outcomes : Nat → Outcome) (l : List String) :
    (∀ inst body, fetchFromPool outcomes l 0 = some (inst, body) ↔
      ∃ k, outcomes k = Outcome.ok body ∧ l[k]? = some inst ∧
        ∀ j < k, (outcomes j).isOk = false)
  ∧ (fetchFromPool outcomes l 0 = none ↔ ∀ j < l.length, (outcomes j).isOk = false)
  ∧ (∃ n, n ≤ l.length ∧ poolAttempts outcomes l 0 = l.take n)
  ∧ (fetchFromPool outcomes l 0 = none → poolAttempts outcomes l 0 = l) := by
  refine ⟨?_, ?_, poolAttempts_eq_take outcomes l 0, poolAttempts_of_none outcomes l 0⟩
  · intro inst body
    rw [fetchFromPool_eq_some_iff outcomes l 0 inst body]
    constructor
    · rintro ⟨k, h1, h2, h3⟩
      exact ⟨k, by simpa using h1, h2, fun j hj => by simpa using h3 j hj⟩
    · rintro ⟨k, h1, h2, h3⟩
      exact ⟨k, by simpa using h1, h2, fun j hj => by simpa using h3 j hj⟩
  · rw [fetchFromPool_eq_none_iff outcomes l 0]
    constructor
    · intro h j hj
      simpa using h j hj
    · intro h j hj
      simpa using h j hj

/-- Witness for C6: with every attempt failing, the part_000 stremio
pool exhausts and both of its instances were attempted. -/
theorem claim_C6_pool_adapter_witness :
    poolAttempts (fun _ => Outcome.netError) STREMIO_INSTANCES 0 = STREMIO_INSTANCES :=
  (claim_C6_pool_adapter (fun _ => Outcome.netError) STREMIO_INSTANCES).2.2.2 rfl

/-- A validated GET request reaches the strategy cascade. -/
lemma handler_eq_core (req : Req) (env : Env) (hm : req.method = "GET")
    (hid : truthyS req.id = true) : handler req env = handlerCore req env := by
  simp [handler, hm, hid]

/-- Reduction of the cascade when JioSaavn is attempted and succeeds. -/
lemma handlerCore_title_ok {req : Req} {env : Env} {r : SaavnResult}
    (ht : truthyStr req.title = true) (hs : saavnStrategy req env = some r) :
    handlerCore req env = ⟨200, .success true (.fromSaavn r), [Strategy.saavn], []⟩ := by
  simp only [handlerCore, ht, hs, if_true]

/-- Reduction of the cascade when JioSaavn is attempted and fails. -/
lemma handlerCore_title_fail {req : Req} {env : Env}
    (ht : truthyStr req.title = true) (hs : saavnStrategy req env = none) :
    handlerCore req env = instanceStage [Strategy.saavn] true env := by
  simp only [handlerCore, ht, hs, if_true]

/-- Reduction of the cascade when JioSaavn is skipped. -/
lemma handlerCore_no_title {req : Req} {env : Env}
    (ht : truthyStr req.title = false) :
    handlerCore req env = instanceStage [] false env := by
  simp only [handlerCore, ht, Bool.false_eq_true, if_false]

/-- Reduction of the instance stage when stremio answers. -/
lemma instanceStage_stremio_ok {env : Env} {inst data : String}
    (t0 : List Strategy) (tt : Bool)
    (h2 : fetchFromStremio env.stremio = some (inst, data)) :
    instanceStage t0 tt env =
      ⟨200, .success true (.fromInst "stremio" inst data),
        t0 ++ [Strategy.stremio], stremioAttempts env⟩ := by
  simp only [instanceStage, h2]

/-- Reduction of the instance stage when stremio exhausts and invidious
answers. -/
lemma instanceStage_invidious_ok {env : Env} {inst data : String}
    (t0 : List Strategy) (tt : Bool)
    (h2 : fetchFromStremio env.stremio = none)
    (h3 : fetchFromInvidious env.invidious = some (inst, data)) :
    instanceStage t0 tt env =
      ⟨200, .success true (.fromInst "invidious" inst data),
        t0 ++ [Strategy.stremio, Strategy.invidious],
        stremioAttempts env ++ invidiousAttempts env⟩ := by
  simp only [instanceStage, h2, h3]

/-- Reduction of the instance stage when both pools exhaust. -/
lemma instanceStage_all_fail {env : Env} (t0 : List Strategy) (tt : Bool)
    (h2 : fetchFromStremio env.stremio = none)
    (h3 : fetchFromInvidious env.invidious = none) :
    instanceStage t0 tt env =
      ⟨404, .failure false "Could not fetch audio from any source"
        ⟨if tt then "failed" else "skipped", "failed", "failed"⟩,
        t0 ++ [Strategy.stremio, Strategy.invidious],
        stremioAttempts env ++ invidiousAttempts env⟩ := by
  simp only [instanceStage, h2, h3]

/-- C8.  A GET request with no `id` parameter is answered 400 with the
explanatory message, and no strategy and no instance is attempted. -/
theorem claim_C8_missing_id (req : Req) (env : Env) (hm : req.method = "GET")
    (hid : req.id = none) :
    handler req env = ⟨400, .errorOnly "Missing required parameter: id", [], []⟩ := by
  simp [handler, hm, hid, truthyS]

/-- Witness for C8: a request carrying every hint but no id. -/
theorem claim_C8_missing_id_witness :
    handler reqNoId envAllFail =
      ⟨400, .errorOnly "Missing required parameter: id", [], []⟩ :=
  claim_C8_missing_id reqNoId envAllFail rfl rfl

/-- C7.  When every strategy fails, the response is 404 with
`success: false`, the error message, and an attempts map marking
metadata-search `failed` when a title hint was given and `skipped`
otherwise, and both instance lookups `failed`. -/
theorem claim_C7_exhaustion (req : Req) (env : Env) (hm : req.method = "GET")
    (hid : truthyS req.id = true)
    (hs : truthyStr req.title = true → saavnStrategy req env = none)
    (h2 : fetchFromStremio env.stremio = none)
    (h3 : fetchFromInvidious env.invidious = none) :
    (handler req env).status = 404 ∧
    (handler req env).body =
      ResponseBody.failure false "Could not fetch audio from any source"
        ⟨if truthyStr req.title = true then "failed" else "skipped",
          "failed", "failed"⟩ := by
  rw [handler_eq_core req env hm hid]
  cases ht : truthyStr req.title with
  | true =>
    rw [handlerCore_title_fail ht (hs ht), instanceStage_all_fail _ _ h2 h3]
    exact ⟨rfl, rfl⟩
  | false =>
    rw [handlerCore_no_title ht, instanceStage_all_fail _ _ h2 h3]
    exact ⟨rfl, rfl⟩

/-- Witness for C7: all sources failing under a request with all hints. -/
theorem claim_C7_exhaustion_witness :
    (handler reqFull envAllFail).status = 404 ∧
    (handler reqFull envAllFail).body =
      ResponseBody.failure false "Could not fetch audio from any source"
        ⟨ "failed", "failed", "failed"⟩ :=
  claim_C7_exhaustion reqFull envAllFail rfl rfl (fun _ => rfl) rfl rfl

/-- C5.  For a validated GET request the handler attempts strategies in
the strict order metadata-search (only under a title hint, otherwise
skipped), stremio, invidious: the trace is always a prefix of that
order, no strategy appears twice, and whichever strategy succeeds first
terminates the request at once with status 200 and its result, leaving
later strategies unattempted. -/
theorem claim_C5_fallback_order (req : Req) (env : Env) (hm : req.method = "GET")
    (hid : truthyS req.id = true) :
    ((handler req env).trace <+:
      ((if truthyStr req.title = true then [Strategy.saavn] else []) ++
        [Strategy.stremio, Strategy.invidious]))
  ∧ (handler req env).trace.Nodup
  ∧ (∀ r, truthyStr req.title = true → saavnStrategy req env = some r →
      handler req env = ⟨200, .success true (.fromSaavn r), [Strategy.saavn], []⟩)
  ∧ (∀ inst data, (truthyStr req.title = false ∨ saavnStrategy req env = none) →
      fetchFromStremio env.stremio = some (inst, data) →
      handler req env = ⟨200, .success true (.fromInst "stremio" inst data),
        (if truthyStr req.title = true then [Strategy.saavn] else []) ++
          [Strategy.stremio], stremioAttempts env⟩)
  ∧ (∀ inst data, (truthyStr req.title = false ∨ saavnStrategy req env = none) →
      fetchFromStremio env.stremio = none →
      fetchFromInvidious env.invidious = some (inst, data) →
      handler req env = ⟨200, .success true (.fromInst "invidious" inst data),
        (if truthyStr req.title = true then [Strategy.saavn] else []) ++
          [Strategy.stremio, Strategy.invidious],
        stremioAttempts env ++ invidiousAttempts env⟩) := by
  rw [handler_eq_core req env hm hid]
  cases ht : truthyStr req.title with
  | true =>
    rcases hs : saavnStrategy req env with _ | r
    · rw [handlerCore_title_fail ht hs]
      rcases h2 : fetchFromStremio env.stremio with _ | ⟨inst, data⟩
      · rcases h3 : fetchFromInvidious env.invidious with _ | ⟨inst, data⟩
        · rw [instanceStage_all_fail _ _ h2 h3]
          refine ⟨by simp, by simp, ?_, ?_, ?_⟩
          · intro r _ hs'
            exact absurd hs' (by simp)
          · intro inst data _ h2'
            exact absurd h2' (by simp)
          · intro inst data _ _ h3'
            exact absurd h3' (by simp)
        · rw [instanceStage_invidious_ok _ _ h2 h3]
          refine ⟨by simp, by simp, ?_, ?_, ?_⟩
          · intro r _ hs'
            exact absurd hs' (by simp)
          · intro inst' data' _ h2'
            exact absurd h2' (by simp)
          · intro inst' data' _ _ h3'
            rw [Option.some.injEq, Prod.mk.injEq] at h3'
            rw [← h3'.1, ← h3'.2]
            rfl
      · rw [instanceStage_stremio_ok _ _ h2]
        refine ⟨by simp, by simp, ?_, ?_, ?_⟩
        · intro r _ hs'
          exact absurd hs' (by simp)
        · intro inst' data' _ h2'
          rw [Option.some.injEq, Prod.mk.injEq] at h2'
          rw [← h2'.1, ← h2'.2]
          rfl
        · intro inst' data' _ h2' _
          exact absurd h2' (by simp)
    · rw [handlerCore_title_ok ht hs]
      refine ⟨by simp, by simp, ?_, ?_, ?_⟩
      · intro r' _ hs'
        rw [Option.some.injEq] at hs'
        rw [← hs']
      · intro inst data hfl _
        rcases hfl with hfl | hfl
        · exact absurd hfl (by simp)
        · exact absurd hfl (by simp)
      · intro inst data hfl _ _
        rcases hfl with hfl | hfl
        · exact absurd hfl (by simp)
        · exact absurd hfl (by simp)
  | false =>
    rw [handlerCore_no_title ht]
    rcases h2 : fetchFromStremio env.stremio with _ | ⟨inst, data⟩
    · rcases h3 : fetchFromInvidious env.invidious with _ | ⟨inst, data⟩
      · rw [instanceStage_all_fail _ _ h2 h3]
        refine ⟨by simp, by simp, ?_, ?_, ?_⟩
        · intro r hfl _
          exact absurd hfl (by simp)
        · intro inst data _ h2'
          exact absurd h2' (by simp)
        · intro inst data _ _ h3'
          exact absurd h3' (by simp)
      · rw [instanceStage_invidious_ok _ _ h2 h3]
        refine ⟨by simp, by simp, ?_, ?_, ?_⟩
        · intro r hfl _
          exact absurd hfl (by simp)
        · intro inst' data' _ h2'
          exact absurd h2' (by simp)
        · intro inst' data' _ _ h3'
          rw [Option.some.injEq, Prod.mk.injEq] at h3'
          rw [← h3'.1, ← h3'.2]
          rfl
    · rw [instanceStage_stremio_ok _ _ h2]
      refine ⟨by simp, by simp, ?_, ?_, ?_⟩
      · intro r hfl _
        exact absurd hfl (by simp)
      · intro inst' data' _ h2'
        rw [Option.some.injEq, Prod.mk.injEq] at h2'
        rw [← h2'.1, ← h2'.2]
        rfl
      · intro inst' data' _ h2' _
        exact absurd h2' (by simp)

/-- Witness for C5: JioSaavn fails, the first stremio instance answers,
invidious is never attempted. -/
theorem claim_C5_fallback_order_witness :
    handler reqTitleOnly envStremioOk =
      ⟨200, .success true
          (.fromInst "stremio" "https://ubiquitous-rugelach-b30b3f.netlify.app" "B"),
        [Strategy.saavn, Strategy.stremio],
        [ "https://ubiquitous-rugelach-b30b3f.netlify.app" ]⟩ :=
  (claim_C5_fallback_order reqTitleOnly envStremioOk rfl rfl).2.2.2.1
    "https://ubiquitous-rugelach-b30b3f.netlify.app" "B" (Or.inr rfl) rfl
